import Mathlib

set_option linter.unnecessarySimpa false
set_option linter.unreachableTactic false
set_option linter.unusedTactic false

/-!
Verification of the MyNoteTaking backend (Flask note-taking service).

Shallow embedding of:
- `src/models/note.py` — the `Note` entity and its tag codec
  (`set_tags_list` / `get_tags_list`, backed by `json.dumps` / `json.loads`);
- `src/routes/note.py` — the request handlers `create_note`, `update_note`,
  `search_notes`, `translate_note`, `generate_note`;
- the parts of CPython's `json` standard library that the code above calls,
  modelled from its documented/observable behaviour (`py_scanstring`,
  `JSONArray`, `JSONObject`, `py_encode_basestring_ascii`): strict rejection of
  unescaped control characters, `\uXXXX` escapes with surrogate-pair
  combination, last-occurrence-wins duplicate object keys, and the JSON integer
  grammar (no leading zeros).  Two representational limits of the model, both
  irrelevant to every claim: fractional/exponent number literals and the
  `NaN`/`Infinity` constants are rejected rather than parsed to floats, and a
  lone UTF-16 surrogate (unrepresentable as a Lean `Char`) decodes to the null
  character.

The LLM completion client (`src/llm.py`, plus the `process_user_notes` helper
that `generate_note` calls) only produces a string for the handlers to consume;
handlers take that string, or the translation function, as an explicit
parameter, so theorems quantify over every possible completion output.
-/

/-- A decoded JSON value, as returned by Python's `json.loads`.  Integers only
in `jnum` (see the module comment). -/
inductive JValue where
  | jnull
  | jbool (b : Bool)
  | jnum (n : Int)
  | jstr (s : String)
  | jarr (items : List JValue)
  | jobj (fields : List (String × JValue))

/-- The whitespace characters of the JSON grammar (CPython `json.decoder.WHITESPACE_STR`). -/
def isJsonWs (c : Char) : Bool := c = ' ' || c = '\t' || c = '\n' || c = '\r'

/-- Drop leading JSON whitespace. -/
def skipWs : List Char → List Char
  | c :: cs => if isJsonWs c then skipWs cs else c :: cs
  | [] => []

/-- Value of one hexadecimal digit character. -/
def hexVal (c : Char) : Option Nat :=
  if '0' ≤ c ∧ c ≤ '9' then some (c.toNat - '0'.toNat)
  else if 'a' ≤ c ∧ c ≤ 'f' then some (c.toNat - 'a'.toNat + 10)
  else if 'A' ≤ c ∧ c ≤ 'F' then some (c.toNat - 'A'.toNat + 10)
  else none

/-- Value of a four-hex-digit group, as read by `\uXXXX` escape decoding. -/
def hexQuad (a b c d : Char) : Option Nat := do
  let va ← hexVal a
  let vb ← hexVal b
  let vc ← hexVal c
  let vd ← hexVal d
  pure (va * 4096 + vb * 256 + vc * 16 + vd)

/-- The single-character escapes of CPython `json.decoder.BACKSLASH`. -/
def backslashEscape : Char → Option Char
  | '"' => some '"'
  | '\\' => some '\\'
  | '/' => some '/'
  | 'b' => some '\x08'
  | 'f' => some '\x0c'
  | 'n' => some '\n'
  | 'r' => some '\r'
  | 't' => some '\t'
  | _ => none

/-- Whether the input starts with the two-character header of a `\uXXXX`
escape (CPython's `s[end:end + 2] == '\\u'` check). -/
def startsUnicodeEsc : List Char → Bool
  | '\\' :: 'u' :: _ => true
  | _ => false

/-- Model of CPython `json.decoder.py_scanstring` (strict mode), applied after
the opening quote: returns the decoded characters and the remainder after the
closing quote.  Unescaped control characters (below `0x20`) are an error; a
`\uXXXX` high surrogate followed by a `\uXXXX` low surrogate combines into one
character; an unpaired surrogate stays alone in CPython (here: null character,
see the module comment).  Fuel-indexed so that recursion is structural; every
recursive call strictly shortens the input, so any fuel above the input length
never runs out (callers pass `length + 1`). -/
def scanstring : Nat → List Char → Option (List Char × List Char)
  | 0, _ => none
  | _ + 1, [] => none
  | _ + 1, '"' :: rest => some ([], rest)
  | fuel + 1, '\\' :: 'u' :: a :: b :: c :: d :: '\\' :: 'u' :: e :: f :: g :: h :: rest3 =>
    match hexQuad a b c d with
    | none => none
    | some m =>
      if 0xD800 ≤ m ∧ m < 0xDC00 then
        match hexQuad e f g h with
        | none => none
        | some m2 =>
          if 0xDC00 ≤ m2 ∧ m2 < 0xE000 then
            match scanstring fuel rest3 with
            | some (s, r) =>
              some (Char.ofNat (0x10000 + (m - 0xD800) * 0x400 + (m2 - 0xDC00)) :: s, r)
            | none => none
          else
            match scanstring fuel ('\\' :: 'u' :: e :: f :: g :: h :: rest3) with
            | some (s, r) => some (Char.ofNat m :: s, r)
            | none => none
      else
        match scanstring fuel ('\\' :: 'u' :: e :: f :: g :: h :: rest3) with
        | some (s, r) => some (Char.ofNat m :: s, r)
        | none => none
  | fuel + 1, '\\' :: 'u' :: a :: b :: c :: d :: rest2 =>
    match hexQuad a b c d with
    | none => none
    | some m =>
      if (0xD800 ≤ m ∧ m < 0xDC00) ∧ startsUnicodeEsc rest2 then none
      else
        match scanstring fuel rest2 with
        | some (s, r) => some (Char.ofNat m :: s, r)
        | none => none
  | _ + 1, '\\' :: 'u' :: _ => none
  | fuel + 1, '\\' :: e :: rest2 =>
    match backslashEscape e with
    | some ch =>
      match scanstring fuel rest2 with
      | some (s, r) => some (ch :: s, r)
      | none => none
    | none => none
  | _ + 1, ['\\'] => none
  | fuel + 1, c :: rest =>
    if c.toNat < 0x20 then none
    else
      match scanstring fuel rest with
      | some (s, r) => some (c :: s, r)
      | none => none

/-- Maximal run of decimal digits at the head of the input. -/
def takeDigitRun : List Char → List Char × List Char
  | c :: cs =>
    if c.isDigit then
      let (ds, r) := takeDigitRun cs
      (c :: ds, r)
    else ([], c :: cs)
  | [] => ([], [])

/-- Numeric value of a run of decimal digit characters. -/
def digitRunVal (ds : List Char) : Nat :=
  ds.foldl (fun acc c => acc * 10 + (c.toNat - '0'.toNat)) 0

/-- Model of the integer part of CPython `json.decoder.NUMBER_RE`: an optional
minus sign, then `0` or a digit run without a leading zero; a following `.`,
`e` or `E` would start a float literal, which the model rejects (module
comment). -/
def scanNumber (cs : List Char) : Option (JValue × List Char) :=
  let (neg, cs1) : Bool × List Char :=
    match cs with
    | '-' :: r => (true, r)
    | _ => (false, cs)
  match takeDigitRun cs1 with
  | ([], _) => none
  | (d :: ds, r) =>
    if d = '0' ∧ ds ≠ [] then none
    else
      match r with
      | '.' :: _ => none
      | 'e' :: _ => none
      | 'E' :: _ => none
      | _ =>
        let v : Int := Int.ofNat (digitRunVal (d :: ds))
        some (.jnum (if neg then -v else v), r)

mutual
/-- Model of one value scan of CPython `json.scanner.py_make_scanner`:
dispatch on the first non-whitespace character. -/
def scanValue : Nat → List Char → Option (JValue × List Char)
  | 0, _ => none
  | fuel + 1, cs =>
    match skipWs cs with
    | '"' :: r =>
      match scanstring (r.length + 1) r with
      | some (s, r2) => some (.jstr (String.mk s), r2)
      | none => none
    | '[' :: r => scanArray fuel r
    | '{' :: r => scanObject fuel r
    | 't' :: 'r' :: 'u' :: 'e' :: r => some (.jbool true, r)
    | 'f' :: 'a' :: 'l' :: 's' :: 'e' :: r => some (.jbool false, r)
    | 'n' :: 'u' :: 'l' :: 'l' :: r => some (.jnull, r)
    | cs' => scanNumber cs'

/-- Model of CPython `json.decoder.JSONArray`, applied after the `[`. -/
def scanArray : Nat → List Char → Option (JValue × List Char)
  | 0, _ => none
  | fuel + 1, cs =>
    match skipWs cs with
    | ']' :: r => some (.jarr [], r)
    | cs' =>
      match scanValue fuel cs' with
      | some (v, r) =>
        match scanArrayTail fuel r with
        | some (vs, r2) => some (.jarr (v :: vs), r2)
        | none => none
      | none => none

/-- After one array element: a `,` continues, a `]` closes. -/
def scanArrayTail : Nat → List Char → Option (List JValue × List Char)
  | 0, _ => none
  | fuel + 1, cs =>
    match skipWs cs with
    | ',' :: r =>
      match scanValue fuel r with
      | some (v, r2) =>
        match scanArrayTail fuel r2 with
        | some (vs, r3) => some (v :: vs, r3)
        | none => none
      | none => none
    | ']' :: r => some ([], r)
    | _ => none

/-- Model of CPython `json.decoder.JSONObject`, applied after the `\x7b`. -/
def scanObject : Nat → List Char → Option (JValue × List Char)
  | 0, _ => none
  | fuel + 1, cs =>
    match skipWs cs with
    | '}' :: r => some (.jobj [], r)
    | '"' :: r =>
      match scanMember fuel r with
      | some (kv, r2) =>
        match scanObjectTail fuel r2 with
        | some (kvs, r3) => some (.jobj (kv :: kvs), r3)
        | none => none
      | none => none
    | _ => none

/-- One object member, applied after the opening quote of its key. -/
def scanMember : Nat → List Char → Option ((String × JValue) × List Char)
  | 0, _ => none
  | fuel + 1, cs =>
    match scanstring (cs.length + 1) cs with
    | some (k, r) =>
      match skipWs r with
      | ':' :: r2 =>
        match scanValue fuel r2 with
        | some (v, r3) => some ((String.mk k, v), r3)
        | none => none
      | _ => none
    | none => none

/-- After one object member: a `,` requires another member, a `\x7d` closes. -/
def scanObjectTail : Nat → List Char → Option (List (String × JValue) × List Char)
  | 0, _ => none
  | fuel + 1, cs =>
    match skipWs cs with
    | ',' :: r =>
      match skipWs r with
      | '"' :: r2 =>
        match scanMember fuel r2 with
        | some (kv, r3) =>
          match scanObjectTail fuel r3 with
          | some (kvs, r4) => some (kv :: kvs, r4)
          | none => none
        | none => none
      | _ => none
    | '}' :: r => some ([], r)
    | _ => none
end

/-- Model of Python `json.loads`: scan one value and require only whitespace
after it ("Extra data" otherwise). -/
def json_loads (s : String) : Option JValue :=
  let cs := s.toList
  match scanValue (cs.length + 1) cs with
  | some (v, r) => if (skipWs r).isEmpty then some v else none
  | none => none

/-- The lowercase hexadecimal digit for `n < 16` (CPython uses `'\u%04x'`). -/
def hexDigit (n : Nat) : Char := "0123456789abcdef".toList.getD n '0'

/-- A `\uXXXX` escape group for a code unit `m < 0x10000`. -/
def uEscape (m : Nat) : List Char :=
  ['\\', 'u', hexDigit (m / 4096 % 16), hexDigit (m / 256 % 16), hexDigit (m / 16 % 16),
    hexDigit (m % 16)]

/-- Model of CPython `json.encoder.py_encode_basestring_ascii` on one character
(`ensure_ascii=True`, the `json.dumps` default): named escapes for the eight
special characters, a literal for printable ASCII, and `\uXXXX` groups —
a surrogate pair for astral characters — for everything else. -/
def encodeChar (c : Char) : List Char :=
  if c = '"' then ['\\', '"']
  else if c = '\\' then ['\\', '\\']
  else if c = '\x08' then ['\\', 'b']
  else if c = '\x0c' then ['\\', 'f']
  else if c = '\n' then ['\\', 'n']
  else if c = '\r' then ['\\', 'r']
  else if c = '\t' then ['\\', 't']
  else if c.toNat < 0x20 ∨ 0x7E < c.toNat then
    if c.toNat < 0x10000 then uEscape c.toNat
    else
      uEscape (0xD800 + (c.toNat - 0x10000) / 0x400) ++
        uEscape (0xDC00 + (c.toNat - 0x10000) % 0x400)
  else [c]

/-- JSON-escape a whole string (character list form). -/
def encodeStr : List Char → List Char
  | [] => []
  | c :: cs => encodeChar c ++ encodeStr cs

/-- The items of a serialized string array after its first element: the
default `json.dumps` item separator is a comma and a space. -/
def dumpsTail : List String → List Char
  | [] => [']']
  | s :: rest => ',' :: ' ' :: '"' :: (encodeStr s.toList ++ '"' :: dumpsTail rest)

/-- The items of a serialized string array, including the closing bracket. -/
def dumpsItems : List String → List Char
  | [] => [']']
  | s :: rest => '"' :: (encodeStr s.toList ++ '"' :: dumpsTail rest)

/-- Model of Python `json.dumps` on a list of strings (default options, as
called by `Note.set_tags_list`). -/
def json_dumps_strings (l : List String) : String := String.mk ('[' :: dumpsItems l)

/-- Model of Python `str.strip()`: drop leading and trailing whitespace. -/
def pyIsSpace (c : Char) : Bool :=
  c = ' ' || c = '\t' || c = '\n' || c = '\r' || c = '\x0b' || c = '\x0c'

def pyStrip (s : String) : String :=
  String.mk (((s.toList.dropWhile pyIsSpace).reverse.dropWhile pyIsSpace).reverse)

/-- Model of Python `str.split(sep)` for a one-character separator: split at
every occurrence, keeping empty segments. -/
def splitOnChar (sep : Char) : List Char → List (List Char)
  | [] => [[]]
  | c :: cs =>
    if c = sep then [] :: splitOnChar sep cs
    else
      match splitOnChar sep cs with
      | seg :: segs => (c :: seg) :: segs
      | [] => [[c]]

/-! ## The Note entity (`src/models/note.py`)

`created_at` / `updated_at` are modelled as abstract `Nat` instants; the
SQLAlchemy `onupdate=datetime.utcnow` hook on `updated_at` is modelled by the
update handler committing with the current instant. -/

structure Note where
  id : Nat
  title : String
  content : String
  tags : Option String
  event_date : Option String
  event_time : Option String
  created_at : Nat
  updated_at : Nat
deriving Repr, DecidableEq

/-- Model of `Note.set_tags_list`: a missing or falsy (`None` / empty) tag list
stores SQL `NULL`, otherwise the JSON serialization.  (`[str(t) for t in
tags_list]` is the identity on a list that already holds strings.) -/
def set_tags_list (tags_list : Option (List String)) : Option String :=
  match tags_list with
  | none => none
  | some l => if l.isEmpty then none else some (json_dumps_strings l)

/-- Model of `Note.get_tags_list`: a falsy stored value (NULL or `""`) gives
`[]`; otherwise `json.loads`, falling back on comma-split-strip-discard when
that raises.  The result is whatever Python value came out, hence `JValue`. -/
def get_tags_list (tags : Option String) : JValue :=
  match tags with
  | none => .jarr []
  | some t =>
    if t = "" then .jarr []
    else
      match json_loads t with
      | some v => v
      | none =>
        .jarr ((((splitOnChar ',' t.toList).map (fun cs => pyStrip (String.mk cs))).filter
          (fun s => s ≠ "")).map .jstr)

/-- Whether a decoded Python value is a list whose members are all strings. -/
def isStringList : JValue → Bool
  | .jarr items => items.all (fun v => match v with | .jstr _ => true | _ => false)
  | _ => false

/-! ## Request handlers (`src/routes/note.py`)

Handlers are modelled as functions from the persisted store (a list of notes)
and the decoded request body to the new store and a response.  Request bodies
are structures of optional fields: an outer `none` is an absent key, matching
the duck-typed `data.get` / `in` accesses of the source.  Field values are
restricted to the payload shapes the claims quantify over (strings, string
lists, `null`); a body of a different JSON shape would flow into SQLAlchemy
coercion or raise inside the handler's generic `except` — outside every claim.
-/

/-- Model of `Note.query.get(note_id)` / `get_or_404`: first note with the id. -/
def findNote (store : List Note) (id : Nat) : Option Note :=
  store.find? (fun n => n.id == id)

/-- A `POST /notes` body.  `none` = key absent; for the optional fields the
inner `Option` distinguishes an explicit JSON `null` from a value. -/
structure CreatePayload where
  title : Option String := none
  content : Option String := none
  tags : Option (Option (List String)) := none
  event_date : Option (Option String) := none
  event_time : Option (Option String) := none
deriving Repr, DecidableEq

inductive CreateResult where
  | created (n : Note)
  | err (status : Nat) (msg : String)
deriving Repr, DecidableEq

/-- Model of `create_note`: reject a missing/empty body or a missing `title` or
`content` key with 400; otherwise build the note (optional fields via `get`,
so an explicit `null` and an absent key coincide), commit it, and answer 201.
`newId` is the server-assigned primary key, `now` the commit instant for both
timestamps. -/
def create_note (store : List Note) (newId now : Nat) (body : Option CreatePayload) :
    List Note × CreateResult :=
  match body with
  | none => (store, .err 400 "Title and content are required")
  | some p =>
    match p.title, p.content with
    | some t, some c =>
      let n : Note :=
        { id := newId, title := t, content := c,
          tags := set_tags_list p.tags.join,
          event_date := p.event_date.join, event_time := p.event_time.join,
          created_at := now, updated_at := now }
      (store ++ [n], .created n)
    | _, _ => (store, .err 400 "Title and content are required")

/-- A `PUT /notes/<id>` body, same conventions as `CreatePayload`. -/
structure UpdatePayload where
  title : Option String := none
  content : Option String := none
  tags : Option (Option (List String)) := none
  event_date : Option (Option String) := none
  event_time : Option (Option String) := none
deriving Repr, DecidableEq

/-- A body with no keys is falsy in Python (`if not data`). -/
def UpdatePayload.isEmptyBody (p : UpdatePayload) : Bool :=
  p.title.isNone && p.content.isNone && p.tags.isNone && p.event_date.isNone &&
    p.event_time.isNone

inductive UpdateResult where
  | ok (n : Note)
  | err (status : Nat) (msg : String)
deriving Repr, DecidableEq

/-- The field assignments of `update_note`: `title`/`content` via
`data.get(key, current)`, the optional fields only when the key is present,
with tag normalization through `set_tags_list`; the commit refreshes
`updated_at` (SQLAlchemy `onupdate`). -/
def applyUpdate (n : Note) (p : UpdatePayload) (now : Nat) : Note :=
  { n with
    title := p.title.getD n.title,
    content := p.content.getD n.content,
    tags := match p.tags with
      | none => n.tags
      | some tv => set_tags_list tv,
    event_date := match p.event_date with
      | none => n.event_date
      | some v => v,
    event_time := match p.event_time with
      | none => n.event_time
      | some v => v,
    updated_at := now }

/-- Model of `update_note`: 404 when the id is absent, 400 on a missing or
empty body, otherwise apply the partial payload and commit. -/
def update_note (store : List Note) (id : Nat) (body : Option UpdatePayload) (now : Nat) :
    List Note × UpdateResult :=
  match findNote store id with
  | none => (store, .err 404 "Not Found")
  | some n =>
    match body with
    | none => (store, .err 400 "No data provided")
    | some p =>
      if p.isEmptyBody then (store, .err 400 "No data provided")
      else
        let n' := applyUpdate n p now
        (store.map (fun m => if m.id == id then n' else m), .ok n')

/-- Substring test, modelling the SQL `LIKE`-style `column.contains(q)`. -/
def charsInfix (needle : List Char) : List Char → Bool
  | [] => needle.isEmpty
  | c :: t => needle.isPrefixOf (c :: t) || charsInfix needle t

def strContains (hay sub : String) : Bool := charsInfix sub.toList hay.toList

/-- Insertion into a list kept in descending `updated_at` order. -/
def insertByUpdatedDesc (n : Note) : List Note → List Note
  | [] => [n]
  | m :: t => if n.updated_at ≤ m.updated_at then m :: insertByUpdatedDesc n t
              else n :: m :: t

def sortByUpdatedDesc : List Note → List Note
  | [] => []
  | n :: t => insertByUpdatedDesc n (sortByUpdatedDesc t)

/-- Model of `search_notes`: an empty `q` short-circuits to an empty list;
otherwise filter on a substring hit in title, content, or the raw serialized
tag text (a NULL tag column never matches), newest-updated first. -/
def search_notes (store : List Note) (q : String) : List Note :=
  if q = "" then []
  else
    sortByUpdatedDesc (store.filter (fun n =>
      strContains n.title q || strContains n.content q ||
        (match n.tags with
         | some t => strContains t q
         | none => false)))

/-- The translate/generate language allow-list. -/
def allowedLanguages : List String := ["Chinese", "English", "Japanese"]

inductive TranslateResult where
  | ok (id : Nat) (title content : String)
  | err (status : Nat) (msg : String)
deriving Repr, DecidableEq

/-- Model of `translate_note`.  `language` is the body's `language` value
(`none` when the body or key is missing).  `tr` is the external completion
client `llm.translate`; the second component records the `(language, text)`
calls made to it, so "does not invoke the completion client" is the empty
call list.  (`note.title or ''` is the identity here since the stored fields
are strings.) -/
def translate_note (store : List Note) (id : Nat) (language : Option String)
    (tr : String → String → String) : TranslateResult × List (String × String) :=
  match findNote store id with
  | none => (.err 404 "Not Found", [])
  | some n =>
    match language with
    | some lang =>
      if allowedLanguages.contains lang then
        (.ok n.id (tr lang n.title) (tr lang n.content),
          [(lang, n.title), (lang, n.content)])
      else (.err 400 "Unsupported language. Allowed: ['Chinese', 'English', 'Japanese']", [])
    | none => (.err 400 "Unsupported language. Allowed: ['Chinese', 'English', 'Japanese']", [])

/-- A `POST /notes/generate` body. -/
structure GenPayload where
  input : Option String := none
  language : Option String := none
deriving Repr, DecidableEq

inductive GenResult where
  | ok (title content tags : JValue) (original_input : String)
  | err (status : Nat) (msg : String)

/-- Suffix of the input starting at its first brace, if any. -/
def fromFirstBrace : List Char → Option (List Char)
  | [] => none
  | c :: t => if c = '{' then some (c :: t) else fromFirstBrace t

/-- Prefix of the input ending at its last closing brace, if any. -/
def upToLastClose (cs : List Char) : Option (List Char) :=
  match cs.reverse.dropWhile (fun c => c ≠ '}') with
  | [] => none
  | l => some l.reverse

/-- Model of `re.search(r'\x7b.*\x7d', text, re.DOTALL)`: with a greedy `.*`
that may cross newlines, the match — when one exists — runs from the first
opening brace to the last closing brace after it. -/
def greedyBraceExtract (cs : List Char) : Option (List Char) :=
  match fromFirstBrace cs with
  | none => none
  | some suf =>
    match upToLastClose suf with
    | none => none
    | some m => if m.length < 2 then none else some m

/-- The parse pipeline of `generate_note`: strict `json.loads` of the whole
response, then `json.loads` of the greedy regex extract. -/
def extractParse (resp : String) : Option JValue :=
  match json_loads resp with
  | some v => some v
  | none =>
    match greedyBraceExtract resp.toList with
    | some sub => json_loads (String.mk sub)
    | none => none

/-- Python `'k' in d` for a decoded JSON object. -/
def hasKey (fields : List (String × JValue)) (k : String) : Bool :=
  fields.any (fun kv => kv.1 == k)

/-- Python `d.get(k, dflt)` for a decoded JSON object: `json.loads` builds the
dict front to back, so a duplicated key holds its last value. -/
def objGetD (fields : List (String × JValue)) (k : String) (dflt : JValue) : JValue :=
  match fields with
  | [] => dflt
  | (k', v) :: rest => if hasKey rest k then objGetD rest k dflt else if k' = k then v else dflt

/-- Model of `generate_note`.  `resp` is the completion client's output
(`llm.process_user_notes`); the handler never touches the store, which is
threaded through unchanged.  A parse failure of both attempts, or a parsed
value that is not an object carrying `Title` and `Notes`, answers 500 (the
source's message carries the exception text; the model keeps the fixed
prefix). -/
def generate_note (store : List Note) (body : Option GenPayload) (resp : String) :
    List Note × GenResult :=
  let data := body.getD {}
  let user_input := pyStrip (data.input.getD "")
  let language := data.language.getD "English"
  if user_input = "" then (store, .err 400 "Input text is required")
  else if allowedLanguages.contains language then
    match extractParse resp with
    | none => (store, .err 500 "Failed to generate note")
    | some v =>
      match v with
      | .jobj fields =>
        if hasKey fields "Title" && hasKey fields "Notes" then
          (store, .ok (objGetD fields "Title" (.jstr "")) (objGetD fields "Notes" (.jstr ""))
            (objGetD fields "Tags" (.jarr [])) user_input)
        else (store, .err 500 "Generated note is missing required fields")
      | _ => (store, .err 500 "Failed to generate note")
  else (store, .err 400 "Unsupported language. Allowed: ['Chinese', 'English', 'Japanese']")

/-- Modelled from the spec: the generate parsing protocol's fallback locates
"the first balanced object-like substring within the text" — the prefix of the
text from its first opening brace through the brace-matching closing one.
This is the claim-side reading to compare against `greedyBraceExtract`, the
code's actual regex. -/
def balancedFrom (depth : Nat) : List Char → Option (List Char)
  | [] => none
  | c :: t =>
    if c = '{' then
      match balancedFrom (depth + 1) t with
      | some s => some (c :: s)
      | none => none
    else if c = '}' then
      if depth = 1 then some [c]
      else
        match balancedFrom (depth - 1) t with
        | some s => some (c :: s)
        | none => none
    else
      match balancedFrom depth t with
      | some s => some (c :: s)
      | none => none

/-- Modelled from the spec: first balanced object-like substring of the text. -/
def specFirstBalanced (cs : List Char) : Option (List Char) :=
  match fromFirstBrace cs with
  | none => none
  | some suf => balancedFrom 0 suf

/-- Whether the parse pipeline produced an object carrying `Title` and `Notes`
(the condition for `generate_note` to answer 200). -/
def genParseOk : Option JValue → Bool
  | some (.jobj fields) => hasKey fields "Title" && hasKey fields "Notes"
  | _ => false

/-- Whether a generate response is the 500 generation-failure classification. -/
def isErr500 : GenResult → Bool
  | .err 500 _ => true
  | _ => false

/-- A concrete stored note used to instantiate witnesses. -/
def note0 : Note :=
  { id := 1, title := "Groceries", content := "Milk and eggs", tags := some "[\"home\"]",
    event_date := some "2025-01-15", event_time := none, created_at := 3, updated_at := 4 }

theorem isStringList_map_jstr (ls : List String) :
    isStringList (.jarr (ls.map .jstr)) = true := by
  induction ls with
  | nil => rfl
  | cons s t ih => simpa [isStringList] using ih

/-! ## Claim theorems -/

/-- C7: for every store state, including states with existing notes, search
with an empty query string returns an empty sequence (not all notes); the
handler short-circuits before any store filtering. -/
theorem C7_search_empty_query_returns_empty (store : List Note) :
    search_notes store "" = [] := by
  simp [search_notes]

/-- C8: for every existing note and every language outside the allow-list
(Chinese, English, Japanese), translate answers a 400 validation error and
the completion client is never invoked (empty call list). -/
theorem C8_translate_unlisted_language (store : List Note) (id : Nat) (n : Note)
    (lang : String) (tr : String → String → String)
    (hfind : findNote store id = some n)
    (hlang : allowedLanguages.contains lang = false) :
    translate_note store id (some lang) tr
      = (.err 400 "Unsupported language. Allowed: ['Chinese', 'English', 'Japanese']", []) := by
  have hmem : lang ∉ allowedLanguages := by simpa using hlang
  simp [translate_note, hfind, hmem]

/-- Witness for C8: language "French" against a one-note store. -/
theorem C8_translate_unlisted_language_witness :
    translate_note [note0] 1 (some "French") (fun _ t => t)
      = (.err 400 "Unsupported language. Allowed: ['Chinese', 'English', 'Japanese']", []) :=
  C8_translate_unlisted_language [note0] 1 note0 "French" (fun _ t => t) rfl rfl

/-- C9: for an existing note id, an update whose body is absent or an empty
object answers 400 with message "No data provided" and leaves the store (hence
the note, and its `updated_at`) unchanged. -/
theorem C9_update_empty_body_rejected (store : List Note) (id : Nat) (n : Note) (now : Nat)
    (hfind : findNote store id = some n) :
    update_note store id none now = (store, .err 400 "No data provided") ∧
    ∀ p : UpdatePayload, p.isEmptyBody = true →
      update_note store id (some p) now = (store, .err 400 "No data provided") := by
  refine ⟨by simp [update_note, hfind], fun p hp => by simp [update_note, hfind, hp]⟩

/-- Witness for C9: absent body and empty body against a one-note store. -/
theorem C9_update_empty_body_rejected_witness :
    update_note [note0] 1 none 9 = ([note0], .err 400 "No data provided") ∧
    update_note [note0] 1 (some {}) 9 = ([note0], .err 400 "No data provided") :=
  ⟨(C9_update_empty_body_rejected [note0] 1 note0 9 rfl).1,
    (C9_update_empty_body_rejected [note0] 1 note0 9 rfl).2 {} rfl⟩

/-- C10: the non-emptiness of title and content is not an invariant preserved
by update: an update payload explicitly supplying empty strings stores them,
and the emptied note is persisted in the store. -/
theorem C10_update_admits_empty_fields (store : List Note) (id : Nat) (n : Note) (now : Nat)
    (hfind : findNote store id = some n) :
    (applyUpdate n { title := some "", content := some "" } now).title = "" ∧
    (applyUpdate n { title := some "", content := some "" } now).content = "" ∧
    update_note store id (some { title := some "", content := some "" }) now
      = (store.map (fun m => if m.id == id then
            applyUpdate n { title := some "", content := some "" } now else m),
          .ok (applyUpdate n { title := some "", content := some "" } now)) ∧
    applyUpdate n { title := some "", content := some "" } now
      ∈ (update_note store id (some { title := some "", content := some "" }) now).1 := by
  have hfind' : store.find? (fun m => m.id == id) = some n := hfind
  have hmem : n ∈ store := List.mem_of_find?_eq_some hfind'
  have hpred := List.find?_some hfind'
  have heq : update_note store id (some { title := some "", content := some "" }) now
      = (store.map (fun m => if m.id == id then
            applyUpdate n { title := some "", content := some "" } now else m),
          .ok (applyUpdate n { title := some "", content := some "" } now)) := by
    simp [update_note, hfind, UpdatePayload.isEmptyBody]
  refine ⟨rfl, rfl, heq, ?_⟩
  rw [heq]
  have h2 : (fun m => if m.id == id then
        applyUpdate n { title := some "", content := some "" } now else m) n
      ∈ store.map (fun m => if m.id == id then
        applyUpdate n { title := some "", content := some "" } now else m) :=
    List.mem_map_of_mem _ hmem
  simpa [hpred] using h2

/-- Witness for C10 against a one-note store. -/
theorem C10_update_admits_empty_fields_witness :
    (applyUpdate note0 { title := some "", content := some "" } 9).title = "" ∧
    (applyUpdate note0 { title := some "", content := some "" } 9).content = "" ∧
    update_note [note0] 1 (some { title := some "", content := some "" }) 9
      = ([note0].map (fun m => if m.id == 1 then
            applyUpdate note0 { title := some "", content := some "" } 9 else m),
          .ok (applyUpdate note0 { title := some "", content := some "" } 9)) ∧
    applyUpdate note0 { title := some "", content := some "" } 9
      ∈ (update_note [note0] 1 (some { title := some "", content := some "" }) 9).1 :=
  C10_update_admits_empty_fields [note0] 1 note0 9 rfl

/-- C4: a content-only update overwrites only `content`, leaves `title`,
`tags`, `event_date`, `event_time` (and `created_at`) unchanged, and refreshes
`updated_at` to the commit instant — advancing it whenever that instant is
later; in general every field absent from the payload keeps its previous
value, and a `tags` key carrying null or the empty list clears the tags. -/
theorem C4_update_partial_frame (store : List Note) (id : Nat) (n : Note) (now : Nat)
    (hfind : findNote store id = some n) :
    (∀ c : String,
      update_note store id (some { content := some c }) now
        = (store.map (fun m => if m.id == id then applyUpdate n { content := some c } now else m),
            .ok (applyUpdate n { content := some c } now)) ∧
      (applyUpdate n { content := some c } now).title = n.title ∧
      (applyUpdate n { content := some c } now).tags = n.tags ∧
      (applyUpdate n { content := some c } now).event_date = n.event_date ∧
      (applyUpdate n { content := some c } now).event_time = n.event_time ∧
      (applyUpdate n { content := some c } now).created_at = n.created_at ∧
      (applyUpdate n { content := some c } now).content = c ∧
      (applyUpdate n { content := some c } now).updated_at = now ∧
      (n.updated_at < now → n.updated_at < (applyUpdate n { content := some c } now).updated_at)) ∧
    (∀ p : UpdatePayload, p.isEmptyBody = false →
      update_note store id (some p) now
        = (store.map (fun m => if m.id == id then applyUpdate n p now else m),
            .ok (applyUpdate n p now)) ∧
      (p.title = none → (applyUpdate n p now).title = n.title) ∧
      (p.content = none → (applyUpdate n p now).content = n.content) ∧
      (p.tags = none → (applyUpdate n p now).tags = n.tags) ∧
      (p.event_date = none → (applyUpdate n p now).event_date = n.event_date) ∧
      (p.event_time = none → (applyUpdate n p now).event_time = n.event_time) ∧
      ((p.tags = some none ∨ p.tags = some (some [])) → (applyUpdate n p now).tags = none) ∧
      (applyUpdate n p now).updated_at = now) := by
  constructor
  · intro c
    refine ⟨by simp [update_note, hfind, UpdatePayload.isEmptyBody], rfl, rfl, rfl, rfl, rfl,
      rfl, rfl, fun h => h⟩
  · intro p hp
    refine ⟨by simp [update_note, hfind, hp], ?_, ?_, ?_, ?_, ?_, ?_, rfl⟩
    · intro h; simp [applyUpdate, h]
    · intro h; simp [applyUpdate, h]
    · intro h; simp [applyUpdate, h]
    · intro h; simp [applyUpdate, h]
    · intro h; simp [applyUpdate, h]
    · rintro (h | h) <;> simp [applyUpdate, h, set_tags_list]

/-- Witness for C4: a content-only update of `note0` at a later instant. -/
theorem C4_update_partial_frame_witness :
    update_note [note0] 1 (some { content := some "fresh" }) 9
      = ([note0].map (fun m => if m.id == 1 then
            applyUpdate note0 { content := some "fresh" } 9 else m),
          .ok (applyUpdate note0 { content := some "fresh" } 9)) ∧
    (applyUpdate note0 { content := some "fresh" } 9).title = note0.title ∧
    (applyUpdate note0 { content := some "fresh" } 9).tags = note0.tags ∧
    (applyUpdate note0 { content := some "fresh" } 9).event_date = note0.event_date ∧
    (applyUpdate note0 { content := some "fresh" } 9).event_time = note0.event_time ∧
    (applyUpdate note0 { content := some "fresh" } 9).created_at = note0.created_at ∧
    (applyUpdate note0 { content := some "fresh" } 9).content = "fresh" ∧
    (applyUpdate note0 { content := some "fresh" } 9).updated_at = 9 ∧
    (note0.updated_at < 9 → note0.updated_at < (applyUpdate note0 { content := some "fresh" } 9).updated_at) :=
  (C4_update_partial_frame [note0] 1 note0 9 rfl).1 "fresh"

/-- C2 counterexample: a create body whose `title` and `content` are present
but empty strings is accepted — the handler answers 201 and persists the note
— contradicting the claim that it fails with a 400 validation error and
persists nothing. -/
theorem C2_counterexample :
    create_note [] 1 0 (some { title := some "", content := some "" })
      = ([{ id := 1, title := "", content := "", tags := none, event_date := none,
              event_time := none, created_at := 0, updated_at := 0 }],
          .created { id := 1, title := "", content := "", tags := none,
                     event_date := none, event_time := none, created_at := 0,
                     updated_at := 0 }) ∧
    (create_note [] 1 0 (some { title := some "", content := some "" })).1 ≠ [] :=
  ⟨rfl, by decide⟩

/-- C2 (amended): create answers the 400 validation error, leaving the store
unchanged, exactly when the body is absent or lacks the `title` or the
`content` key; present values are not validated, so empty strings pass. -/
theorem C2_create_validation_amended (store : List Note) (newId now : Nat)
    (body : Option CreatePayload) :
    ((create_note store newId now body).2 = .err 400 "Title and content are required" ∧
      (create_note store newId now body).1 = store)
      ↔ (body = none ∨ ∃ p, body = some p ∧ (p.title = none ∨ p.content = none)) := by
  match body with
  | none => simp [create_note]
  | some p =>
    match ht : p.title, hc : p.content with
    | some t, some c => simp [create_note, ht, hc]
    | some t, none => simp [create_note, ht, hc]
    | none, some c => simp [create_note, ht, hc]
    | none, none => simp [create_note, ht, hc]

/-- Witness for C2 (amended): a body carrying only a title is rejected. -/
theorem C2_create_validation_amended_witness :
    (create_note [] 1 0 (some { title := some "x" })).2
        = .err 400 "Title and content are required" ∧
      (create_note [] 1 0 (some { title := some "x" })).1 = [] :=
  (C2_create_validation_amended [] 1 0 (some { title := some "x" })).mpr
    (Or.inr ⟨{ title := some "x" }, rfl, Or.inr rfl⟩)

/-- C1 counterexample: with input `" hi "` (non-empty), an allowed language,
and a completion returning a JSON object with Title and Notes, generate
succeeds but echoes the *stripped* input `"hi"`, not the original input, so
the claim's "original input echoed back" fails as stated. -/
theorem C1_counterexample :
    (generate_note [] (some { input := some " hi ", language := some "English" })
        "\x7b\"Title\": \"t\", \"Notes\": \"n\"\x7d").2
      = .ok (.jstr "t") (.jstr "n") (.jarr []) "hi" ∧ "hi" ≠ " hi " :=
  ⟨rfl, by decide⟩

/-- C1 (amended): for every input whose stripped form is non-empty and every
allowed language, when the completion output parses strictly as a JSON object
with Title and Notes keys, generate answers the object's Title as title, its
Notes as content, its Tags (defaulting to the empty list when absent) as tags,
echoes the stripped input, and leaves the store untouched. -/
theorem C1_generate_success_amended (store : List Note) (inp lang resp : String)
    (fields : List (String × JValue))
    (hinp : pyStrip inp ≠ "")
    (hlang : lang ∈ allowedLanguages)
    (hparse : json_loads resp = some (.jobj fields))
    (ht : hasKey fields "Title" = true)
    (hn : hasKey fields "Notes" = true) :
    generate_note store (some { input := some inp, language := some lang }) resp
      = (store, .ok (objGetD fields "Title" (.jstr "")) (objGetD fields "Notes" (.jstr ""))
          (objGetD fields "Tags" (.jarr [])) (pyStrip inp)) := by
  simp [generate_note, extractParse, hparse, hlang, hinp, ht, hn]

/-- Witness for C1 (amended): the spec's own example input and stub. -/
theorem C1_generate_success_amended_witness :
    generate_note [] (some { input := some "Meeting with Bob tomorrow at 3pm, tag it work",
                             language := some "English" })
      "\x7b\"Title\": \"Meeting with Bob\", \"Notes\": \"details\", \"Tags\": [\"work\"]\x7d"
      = ([], .ok (.jstr "Meeting with Bob") (.jstr "details") (.jarr [.jstr "work"])
          "Meeting with Bob tomorrow at 3pm, tag it work") :=
  C1_generate_success_amended [] "Meeting with Bob tomorrow at 3pm, tag it work" "English"
    "\x7b\"Title\": \"Meeting with Bob\", \"Notes\": \"details\", \"Tags\": [\"work\"]\x7d"
    [("Title", .jstr "Meeting with Bob"), ("Notes", .jstr "details"),
      ("Tags", .jarr [.jstr "work"])]
    (by decide) (by decide) rfl rfl rfl

/-- C3 counterexample: on the response `(object) (stray brace)`, the first
balanced object-like substring exists and parses to an object carrying Title
and Notes — so the claim predicts success — but the code's greedy
first-to-last-brace extract is unparsable and generate answers the 500
generation failure. -/
theorem C3_counterexample :
    specFirstBalanced "\x7b\"Title\": \"a\", \"Notes\": \"b\"\x7d \x7d".toList
      = some "\x7b\"Title\": \"a\", \"Notes\": \"b\"\x7d".toList ∧
    json_loads "\x7b\"Title\": \"a\", \"Notes\": \"b\"\x7d"
      = some (.jobj [("Title", .jstr "a"), ("Notes", .jstr "b")]) ∧
    greedyBraceExtract "\x7b\"Title\": \"a\", \"Notes\": \"b\"\x7d \x7d".toList
      = some "\x7b\"Title\": \"a\", \"Notes\": \"b\"\x7d \x7d".toList ∧
    (generate_note [] (some { input := some "x", language := some "English" })
        "\x7b\"Title\": \"a\", \"Notes\": \"b\"\x7d \x7d").2
      = .err 500 "Failed to generate note" :=
  ⟨rfl, rfl, rfl, rfl⟩

set_option maxRecDepth 4000 in
/-- C3 (amended): generate first attempts strict `json.loads` of the whole
response; on failure it parses the greedy extract running from the first
opening brace to the last closing brace (not the first *balanced* object-like
substring); with valid input and language it answers the 500 generation
failure exactly when that pipeline yields no object carrying Title and
Notes. -/
theorem C3_generate_parse_amended (store : List Note) (inp lang resp : String)
    (hinp : pyStrip inp ≠ "") (hlang : lang ∈ allowedLanguages) :
    isErr500 (generate_note store (some { input := some inp, language := some lang }) resp).2
      = !genParseOk (extractParse resp) := by
  have hc : allowedLanguages.contains lang = true := by simpa using hlang
  simp only [generate_note, Option.getD_some]
  rw [if_neg hinp]
  simp only [hc, if_true]
  cases hx : extractParse resp with
  | none => rfl
  | some v =>
    cases v with
    | jobj fields =>
      cases hk : hasKey fields "Title" && hasKey fields "Notes" with
      | true => simp [hk, genParseOk, isErr500]
      | false => simp [hk, genParseOk, isErr500]
    | jnull => rfl
    | jbool b => rfl
    | jnum n => rfl
    | jstr s => rfl
    | jarr items => rfl

/-- Witness for C3 (amended): an unstructured prose response is classified as
the 500 generation failure. -/
theorem C3_generate_parse_amended_witness :
    isErr500 (generate_note [] (some { input := some "buy milk", language := some "English" })
        "no structured output at all").2
      = !genParseOk (extractParse "no structured output at all") :=
  C3_generate_parse_amended [] "buy milk" "English" "no structured output at all"
    (by decide) (by decide)

/-- C6 counterexample: the stored tag value `"5"` is valid JSON, so decode
returns the integer 5 as-is — not a sequence of strings — refuting the claim
that decoding always returns a sequence of strings. -/
theorem C6_counterexample :
    get_tags_list (some "5") = .jnum 5 ∧
    isStringList (get_tags_list (some "5")) = false :=
  ⟨rfl, rfl⟩

/-- C6 (amended): decoding a stored tag value never fails: when the stored
value is valid structured data the parsed value is returned as-is (and need
not be a sequence of strings); otherwise — including the absent and empty
forms — the comma-split-trim-discard fallback yields a sequence of strings;
in particular the malformed stored value "a, b ,c" decodes to a, b, c. -/
theorem C6_tag_decode_total_amended :
    (∀ t : Option String,
      (∃ s v, t = some s ∧ json_loads s = some v ∧ get_tags_list t = v) ∨
        isStringList (get_tags_list t) = true) ∧
    get_tags_list (some "a, b ,c") = .jarr [.jstr "a", .jstr "b", .jstr "c"] := by
  constructor
  · intro t
    match t with
    | none => exact Or.inr rfl
    | some s =>
      by_cases hs : s = ""
      · subst hs; exact Or.inr rfl
      · cases hj : json_loads s with
        | some v => exact Or.inl ⟨s, v, rfl, hj, by simp [get_tags_list, hs, hj]⟩
        | none =>
          right
          simpa [get_tags_list, hs, hj] using isStringList_map_jstr
            ((((splitOnChar ',' s.toList).map (fun cs => pyStrip (String.mk cs))).filter
              (fun s => s ≠ "")))
  · rfl

/-! ## Round trip of the tag codec: `json.loads` inverts `json.dumps` -/

/-- Every Lean `Char` is a Unicode scalar value: below the surrogate block or
above it and below `0x110000`. -/
theorem char_toNat_valid (c : Char) :
    c.toNat < 0xD800 ∨ (0xDFFF < c.toNat ∧ c.toNat < 0x110000) := by
  rcases c.valid with h | ⟨h1, h2⟩
  · exact Or.inl (UInt32.toNat_lt_of_lt (by decide) h)
  · exact Or.inr ⟨UInt32.lt_toNat_of_lt (by decide) h1, UInt32.toNat_lt_of_lt (by decide) h2⟩

/-- `hexVal` reads back the digit character `hexDigit` prints. -/
theorem hexVal_hexDigit {n : Nat} (h : n < 16) : hexVal (hexDigit n) = some n := by
  interval_cases n <;> decide

/-- `hexQuad` reads back the four digits of a `\uXXXX` group. -/
theorem hexQuad_uEscape {m : Nat} (hm : m < 0x10000) :
    hexQuad (hexDigit (m / 4096 % 16)) (hexDigit (m / 256 % 16)) (hexDigit (m / 16 % 16))
      (hexDigit (m % 16)) = some m := by
  rw [hexQuad, hexVal_hexDigit (Nat.mod_lt _ (by omega)),
    hexVal_hexDigit (Nat.mod_lt _ (by omega)), hexVal_hexDigit (Nat.mod_lt _ (by omega)),
    hexVal_hexDigit (Nat.mod_lt _ (by omega))]
  show some _ = some m
  congr 1
  omega

/-- A character other than a quote, a backslash, or a control character is
scanned through literally. -/
theorem scanstring_plain {c : Char} (h1 : c ≠ '"') (h2 : c ≠ '\\') (h3 : ¬ c.toNat < 0x20)
    (fuel : Nat) (tail : List Char) :
    scanstring (fuel + 1) (c :: tail)
      = match scanstring fuel tail with
        | some (s, r) => some (c :: s, r)
        | none => none := by
  rw [scanstring.eq_def]
  split
  all_goals simp_all
  all_goals (rw [if_neg (by omega)]; split <;> (rename_i hs; rw [hs]))

/-- A `\uXXXX` group for a non-surrogate code point decodes to that character
and scanning continues. -/
theorem scanstring_uEscape {m : Nat} (hm : m < 0x10000) (hns : m < 0xD800 ∨ 0xDFFF < m)
    (fuel : Nat) (tail : List Char) :
    scanstring (fuel + 1) (uEscape m ++ tail)
      = match scanstring fuel tail with
        | some (s, r) => some (Char.ofNat m :: s, r)
        | none => none := by
  have hq := hexQuad_uEscape hm
  rw [show uEscape m ++ tail = '\\' :: 'u' :: hexDigit (m / 4096 % 16) :: hexDigit (m / 256 % 16)
    :: hexDigit (m / 16 % 16) :: hexDigit (m % 16) :: tail from rfl]
  rw [scanstring.eq_def]
  split
  all_goals simp_all
  all_goals first
    | (intro hc1 hc2; exfalso; omega)
    | (rw [if_neg (by omega)]; split <;> (rename_i hs; rw [hs]))
    | (rw [if_neg (by rintro ⟨⟨hx, hy⟩, -⟩; omega)]; split <;> (rename_i hs; rw [hs]))
    | (rename_i hno hfuel heq; exact absurd heq.symm (hno _ _ _ _ _))
    | (rename_i hne hfuel heq; exact absurd heq.1.symm hne)
    | (rename_i hother hcons hnil hfuel heq; exact absurd heq.2.symm (hcons _ _ heq.1.symm))

/-- A surrogate-pair escape decodes to the astral character it encodes. -/
theorem scanstring_uEscape_pair {m : Nat} (hm1 : 0x10000 ≤ m) (hm2 : m < 0x110000)
    (fuel : Nat) (tail : List Char) :
    scanstring (fuel + 1)
      (uEscape (0xD800 + (m - 0x10000) / 0x400) ++ (uEscape (0xDC00 + (m - 0x10000) % 0x400) ++ tail))
      = match scanstring fuel tail with
        | some (s, r) => some (Char.ofNat m :: s, r)
        | none => none := by
  have hhi : 0xD800 + (m - 0x10000) / 0x400 < 0x10000 := by omega
  have hlo : 0xDC00 + (m - 0x10000) % 0x400 < 0x10000 := by
    have h400 : (m - 0x10000) % 0x400 < 0x400 := Nat.mod_lt _ (by omega)
    omega
  have hq1 := hexQuad_uEscape hhi
  have hq2 := hexQuad_uEscape hlo
  rw [show uEscape (0xD800 + (m - 0x10000) / 0x400) ++ (uEscape (0xDC00 + (m - 0x10000) % 0x400) ++ tail)
      = '\\' :: 'u' :: hexDigit ((0xD800 + (m - 0x10000) / 0x400) / 4096 % 16)
        :: hexDigit ((0xD800 + (m - 0x10000) / 0x400) / 256 % 16)
        :: hexDigit ((0xD800 + (m - 0x10000) / 0x400) / 16 % 16)
        :: hexDigit ((0xD800 + (m - 0x10000) / 0x400) % 16)
        :: '\\' :: 'u' :: hexDigit ((0xDC00 + (m - 0x10000) % 0x400) / 4096 % 16)
        :: hexDigit ((0xDC00 + (m - 0x10000) % 0x400) / 256 % 16)
        :: hexDigit ((0xDC00 + (m - 0x10000) % 0x400) / 16 % 16)
        :: hexDigit ((0xDC00 + (m - 0x10000) % 0x400) % 16) :: tail from rfl]
  have c1 : 0xD800 ≤ 0xD800 + (m - 0x10000) / 0x400 ∧ 0xD800 + (m - 0x10000) / 0x400 < 0xDC00 :=
    ⟨by omega, by omega⟩
  have c2 : 0xDC00 ≤ 0xDC00 + (m - 0x10000) % 0x400 ∧ 0xDC00 + (m - 0x10000) % 0x400 < 0xE000 :=
    ⟨by omega, by omega⟩
  have hcomb : 0x10000 + ((0xD800 + (m - 0x10000) / 0x400) - 0xD800) * 0x400
      + ((0xDC00 + (m - 0x10000) % 0x400) - 0xDC00) = m := by omega
  rw [scanstring]
  simp only [hq1, hq2]
  rw [if_pos c1, if_pos c2, hcomb]
  all_goals split <;> (rename_i hs; rw [hs])

/-- A named escape decodes through the `backslashEscape` table. -/
theorem scanstring_namedEsc (e ch : Char) (he : backslashEscape e = some ch) (hne : e ≠ 'u')
    (fuel : Nat) (tail : List Char) :
    scanstring (fuel + 1) ('\\' :: e :: tail)
      = match scanstring fuel tail with
        | some (s, r) => some (ch :: s, r)
        | none => none := by
  rw [scanstring.eq_def]
  split
  all_goals simp_all
  all_goals first
    | (split <;> (rename_i hs; rw [hs]))
    | (rename_i hA hcons hnil hfuel heq; exact absurd heq.2.symm (hcons _ _ heq.1.symm))

/-- The string scanner inverts the `json.dumps` character escaper: scanning an
escaped string body followed by the closing quote returns the original
characters, for any sufficient fuel. -/
theorem scanstring_encodeStr : ∀ (l : List Char) (fuel : Nat) (rest : List Char),
    l.length < fuel → scanstring fuel (encodeStr l ++ '"' :: rest) = some (l, rest) := by
  intro l
  induction l with
  | nil =>
    intro fuel rest h
    match fuel, h with
    | f + 1, _ => rfl
  | cons c t ih =>
    intro fuel rest h
    match fuel, h with
    | f + 1, h =>
      have ht : t.length < f := by simp only [List.length_cons] at h; omega
      have hih := ih f rest ht
      rw [show encodeStr (c :: t) ++ '"' :: rest
          = encodeChar c ++ (encodeStr t ++ '"' :: rest) by simp [encodeStr]]
      by_cases h1 : c = '"'
      · subst h1
        rw [show encodeChar '"' = ['\\', '"'] from rfl, List.cons_append, List.cons_append,
          List.nil_append, scanstring_namedEsc '"' '"' rfl (by decide), hih]
      · by_cases h2 : c = '\\'
        · subst h2
          rw [show encodeChar '\\' = ['\\', '\\'] from rfl, List.cons_append, List.cons_append,
            List.nil_append, scanstring_namedEsc '\\' '\\' rfl (by decide), hih]
        · by_cases h3 : c = '\x08'
          · subst h3
            rw [show encodeChar '\x08' = ['\\', 'b'] from rfl, List.cons_append, List.cons_append,
              List.nil_append, scanstring_namedEsc 'b' '\x08' rfl (by decide), hih]
          · by_cases h4 : c = '\x0c'
            · subst h4
              rw [show encodeChar '\x0c' = ['\\', 'f'] from rfl, List.cons_append,
                List.cons_append, List.nil_append, scanstring_namedEsc 'f' '\x0c' rfl (by decide), hih]
            · by_cases h5 : c = '\n'
              · subst h5
                rw [show encodeChar '\n' = ['\\', 'n'] from rfl, List.cons_append,
                  List.cons_append, List.nil_append, scanstring_namedEsc 'n' '\n' rfl (by decide), hih]
              · by_cases h6 : c = '\r'
                · subst h6
                  rw [show encodeChar '\r' = ['\\', 'r'] from rfl, List.cons_append,
                    List.cons_append, List.nil_append, scanstring_namedEsc 'r' '\r' rfl (by decide), hih]
                · by_cases h7 : c = '\t'
                  · subst h7
                    rw [show encodeChar '\t' = ['\\', 't'] from rfl, List.cons_append,
                      List.cons_append, List.nil_append, scanstring_namedEsc 't' '\t' rfl (by decide), hih]
                  · by_cases h8 : c.toNat < 0x20
                    · have he : encodeChar c = uEscape c.toNat := by
                        rw [encodeChar, if_neg h1, if_neg h2, if_neg h3, if_neg h4, if_neg h5,
                          if_neg h6, if_neg h7, if_pos (Or.inl h8), if_pos (by omega)]
                      rw [he, scanstring_uEscape (by omega) (Or.inl (by omega)), hih,
                        Char.ofNat_toNat]
                    · by_cases h9 : 0x7E < c.toNat
                      · by_cases h10 : c.toNat < 0x10000
                        · have he : encodeChar c = uEscape c.toNat := by
                            rw [encodeChar, if_neg h1, if_neg h2, if_neg h3, if_neg h4, if_neg h5,
                              if_neg h6, if_neg h7, if_pos (Or.inr h9), if_pos h10]
                          have hns : c.toNat < 0xD800 ∨ 0xDFFF < c.toNat := by
                            rcases char_toNat_valid c with hv | ⟨hv1, hv2⟩
                            · exact Or.inl hv
                            · exact Or.inr hv1
                          rw [he, scanstring_uEscape h10 hns, hih, Char.ofNat_toNat]
                        · have he : encodeChar c
                              = uEscape (0xD800 + (c.toNat - 0x10000) / 0x400)
                                ++ uEscape (0xDC00 + (c.toNat - 0x10000) % 0x400) := by
                            rw [encodeChar, if_neg h1, if_neg h2, if_neg h3, if_neg h4, if_neg h5,
                              if_neg h6, if_neg h7, if_pos (Or.inr h9), if_neg h10]
                          have hlt : c.toNat < 0x110000 := by
                            rcases char_toNat_valid c with hv | ⟨hv1, hv2⟩
                            · omega
                            · exact hv2
                          rw [he, List.append_assoc,
                            scanstring_uEscape_pair (by omega) hlt, hih, Char.ofNat_toNat]
                      · have he : encodeChar c = [c] := by
                          rw [encodeChar, if_neg h1, if_neg h2, if_neg h3, if_neg h4, if_neg h5,
                            if_neg h6, if_neg h7, if_neg (by omega)]
                        rw [he, List.cons_append, List.nil_append,
                          scanstring_plain h1 h2 h8, hih]

/-- Rebuilding a string from its character list is the identity. -/
theorem string_mk_toList (s : String) : String.mk s.toList = s := by
  cases s
  rfl

/-- Escaping never shortens a string (each character expands to 1 or more). -/
theorem encodeStr_length_ge : ∀ l : List Char, l.length ≤ (encodeStr l).length := by
  intro l
  induction l with
  | nil => simp [encodeStr]
  | cons c t ih =>
    have hc : 1 ≤ (encodeChar c).length := by
      unfold encodeChar uEscape
      repeat' split
      all_goals simp
    simp only [encodeStr, List.length_append, List.length_cons]
    omega

theorem skipWs_cons_ws {c : Char} (h : isJsonWs c = true) (cs : List Char) :
    skipWs (c :: cs) = skipWs cs := by
  rw [skipWs, if_pos h]

theorem skipWs_cons_not {c : Char} (h : isJsonWs c = false) (cs : List Char) :
    skipWs (c :: cs) = c :: cs := by
  rw [skipWs, if_neg (by simp [h])]

set_option maxHeartbeats 2000000 in
/-- A value scan whose input starts (after whitespace) with an escaped string
literal returns that string. -/
theorem scanValue_strLit (f2 : Nat) (l : List Char) (tail cs : List Char)
    (hskip : skipWs cs = '"' :: (encodeStr l ++ '"' :: tail)) :
    scanValue (f2 + 1) cs = some (.jstr (String.mk l), tail) := by
  have hlen : l.length < (encodeStr l ++ '"' :: tail).length + 1 := by
    have := encodeStr_length_ge l
    simp only [List.length_append, List.length_cons]
    omega
  rw [scanValue, hskip]
  split
  case h_1 =>
    rename_i r heq
    injection heq with heq1 heq2
    subst heq2
    rw [scanstring_encodeStr l _ tail hlen]
  case h_7 =>
    rename_i x1 x2 x3 x4 x5 x6
    exact absurd rfl (x1 _)
  all_goals (rename_i r heq; injection heq with heq1 heq2; exact absurd heq1 (by decide))

theorem dumpsTail_length_ge : ∀ l : List String, l.length + 1 ≤ (dumpsTail l).length := by
  intro l
  induction l with
  | nil => simp [dumpsTail]
  | cons s t ih =>
    simp only [dumpsTail, List.length_cons, List.length_append] at *
    omega

theorem dumpsItems_length_ge : ∀ l : List String, l.length + 1 ≤ (dumpsItems l).length := by
  intro l
  cases l with
  | nil => simp [dumpsItems]
  | cons s t =>
    have := dumpsTail_length_ge t
    simp only [dumpsItems, List.length_cons, List.length_append]
    omega

/-- The array-tail scanner inverts the `", "`-separated item serializer. -/
theorem scanArrayTail_dumpsTail : ∀ (l : List String) (fuel : Nat) (rest : List Char),
    l.length < fuel →
    scanArrayTail fuel (dumpsTail l ++ rest) = some (l.map .jstr, rest) := by
  intro l
  induction l with
  | nil =>
    intro fuel rest h
    match fuel, h with
    | f + 1, _ => rfl
  | cons s t ih =>
    intro fuel rest h
    match fuel, h with
    | f + 1, h =>
      have hf : t.length + 1 ≤ f := by simp only [List.length_cons] at h; omega
      match f, hf with
      | f2 + 1, _ =>
        have ht : t.length < f2 + 1 := by omega
        rw [show dumpsTail (s :: t) ++ rest
            = ',' :: (' ' :: '"' :: (encodeStr s.toList ++ '"' :: (dumpsTail t ++ rest))) by
          simp [dumpsTail]]
        rw [scanArrayTail, skipWs_cons_not (by decide)]
        split
        case h_1 =>
          rename_i r heq
          injection heq with heq1 heq2
          subst heq2
          rw [scanValue_strLit f2 s.toList (dumpsTail t ++ rest) _
            (by rw [skipWs_cons_ws (by decide), skipWs_cons_not (by decide)])]
          simp only []
          rw [ih (f2 + 1) rest ht, string_mk_toList]
          rfl
        case h_2 =>
          rename_i r heq
          injection heq with heq1 heq2
          exact absurd heq1 (by decide)
        case h_3 =>
          rename_i x1 x2
          exact absurd rfl (x1 _)

/-- The array scanner inverts the item serializer (closing bracket included). -/
theorem scanArray_dumpsItems (l : List String) (fuel : Nat) (rest : List Char)
    (h : l.length + 1 < fuel) :
    scanArray fuel (dumpsItems l ++ rest) = some (.jarr (l.map .jstr), rest) := by
  match fuel, h with
  | f + 1, h =>
    cases l with
    | nil => rfl
    | cons s t =>
      have hf : t.length + 2 ≤ f := by simp only [List.length_cons] at h; omega
      match f, hf with
      | f2 + 1, _ =>
        rw [show dumpsItems (s :: t) ++ rest
            = '"' :: (encodeStr s.toList ++ '"' :: (dumpsTail t ++ rest)) by
          simp [dumpsItems]]
        rw [scanArray, skipWs_cons_not (by decide)]
        split
        case h_1 =>
          rename_i r heq
          injection heq with heq1 heq2
          exact absurd heq1 (by decide)
        case h_2 =>
          rename_i x1
          rw [scanValue_strLit f2 s.toList (dumpsTail t ++ rest) _
            (by rw [skipWs_cons_not (by decide)])]
          simp only []
          rw [scanArrayTail_dumpsTail t (f2 + 1) rest (by omega), string_mk_toList]
          rfl

/-- Scanning the full serialized string array yields the string values. -/
theorem scanValue_dumps (l : List String) :
    scanValue ((dumpsItems l).length + 1 + 1) ('[' :: dumpsItems l)
      = some (.jarr (l.map .jstr), []) := by
  have harr := scanArray_dumpsItems l ((dumpsItems l).length + 1) []
    (by have := dumpsItems_length_ge l; omega)
  rw [List.append_nil] at harr
  rw [scanValue, skipWs_cons_not (by decide)]
  split
  case h_1 =>
    rename_i r heq
    injection heq with heq1 heq2
    exact absurd heq1 (by decide)
  case h_2 =>
    rename_i r heq
    injection heq with heq1 heq2
    subst heq2
    exact harr
  case h_3 | h_4 | h_5 | h_6 =>
    rename_i r heq
    injection heq with heq1 heq2
    exact absurd heq1 (by decide)
  case h_7 =>
    rename_i x1 x2 x3 x4 x5 x6
    exact absurd rfl (x2 _)

/-- The round trip of the underlying library codec: `json.loads` inverts
`json.dumps` on every list of strings. -/
theorem json_loads_dumps (l : List String) :
    json_loads (json_dumps_strings l) = some (.jarr (l.map .jstr)) := by
  rw [json_loads, json_dumps_strings]
  rw [show String.toList (String.mk ('[' :: dumpsItems l)) = '[' :: dumpsItems l from rfl]
  rw [show ('[' :: dumpsItems l).length + 1 = (dumpsItems l).length + 1 + 1 by simp]
  rw [scanValue_dumps l]
  rfl

/-- A serialized tag list is never the empty string (it starts with `[`). -/
theorem json_dumps_strings_ne_empty (l : List String) : json_dumps_strings l ≠ "" := by
  intro h
  have h2 := congrArg String.data h
  simp [json_dumps_strings] at h2

/-- C5: the tag codec round-trips: decoding the encoded form of any non-empty
ordered sequence of strings returns it unchanged (order preserved, arbitrary
characters); encoding the empty (or null) sequence produces the absent form
(SQL NULL), not an empty-list marker, and decoding the absent form yields the
empty sequence. -/
theorem C5_tag_codec_roundtrip :
    (∀ l : List String, l ≠ [] →
      get_tags_list (set_tags_list (some l)) = .jarr (l.map .jstr)) ∧
    set_tags_list (some []) = none ∧ set_tags_list none = none ∧
    get_tags_list none = .jarr [] := by
  refine ⟨?_, rfl, rfl, rfl⟩
  intro l hl
  rw [set_tags_list]
  rw [if_neg (by simpa using hl)]
  rw [get_tags_list]
  rw [if_neg (json_dumps_strings_ne_empty l), json_loads_dumps l]

/-- Witness for C5 at the tag list ["work", "personal"]. -/
theorem C5_tag_codec_roundtrip_witness :
    get_tags_list (set_tags_list (some ["work", "personal"]))
      = .jarr [.jstr "work", .jstr "personal"] :=
  C5_tag_codec_roundtrip.1 ["work", "personal"] (by decide)
